/-
Verification of the mockery-api request-dispatch engine.

This file shallowly embeds the Go source (handler.go, config.go, main.go)
into Lean 4.  Go strings are modelled as Lean `String`s; the character-level
operations (`strings.Trim`, `strings.Split`, `strings.Contains`,
`strings.HasPrefix`, `strings.HasSuffix`) work on `List Char`, which matches
Go byte-wise string semantics for the ASCII data involved.
-/
import Mathlib

namespace Mockery

/-- The character `{` (written via its code point to keep brace characters
out of the source text). -/
def lbrace : Char := Char.ofNat 123

/-- The character `}` (written via its code point). -/
def rbrace : Char := Char.ofNat 125

/-- Go `strings.Split(s, "/")`: splits on every `/`; the empty string yields
one empty segment, and consecutive slashes yield empty segments. -/
def splitOnSlash : List Char → List (List Char)
  | [] => [[]]
  | c :: rest =>
    match splitOnSlash rest with
    | [] => [[]]
    | seg :: segs =>
      if c = '/' then [] :: seg :: segs else (c :: seg) :: segs

/-- Go `strings.Trim(s, "/")`: removes every leading and trailing `/`. -/
def trimSlashes (cs : List Char) : List Char :=
  ((cs.dropWhile (fun c => c == '/')).reverse.dropWhile (fun c => c == '/')).reverse

/-- Go `strings.HasPrefix(seg, "{") && strings.HasSuffix(seg, "}")`:
the test applied to each pattern segment in `pathMatches`. -/
def isParamSeg (seg : List Char) : Bool :=
  seg.head? = some lbrace && seg.getLast? = some rbrace

/-- One iteration of the segment-comparison loop of `pathMatches`:
a parameter segment matches anything (the Go loop `continue`s),
otherwise the two segments must be equal. -/
def segMatches (p q : List Char) : Bool :=
  isParamSeg p || p == q

/-- The segment-comparison phase of `pathMatches`: the Go code first
requires equal segment counts and then compares pairwise; this recursion
returns `false` on a length mismatch and otherwise folds `segMatches`. -/
def segsMatch : List (List Char) → List (List Char) → Bool
  | [], [] => true
  | p :: ps, q :: qs => segMatches p q && segsMatch ps qs
  | _, _ => false

/-- `pathMatches` from handler.go, on character lists: exact equality fast
path; then a pattern without `{` never matches; otherwise trim slashes,
split on `/`, and compare segment-wise. -/
def pathMatchesL (pat pth : List Char) : Bool :=
  if pat = pth then true
  else if ¬ pat.contains lbrace then false
  else segsMatch (splitOnSlash (trimSlashes pat)) (splitOnSlash (trimSlashes pth))

/-- `pathMatches(pattern, path)` from handler.go on Go strings. -/
def pathMatches (pattern path : String) : Bool :=
  pathMatchesL pattern.toList path.toList

example : pathMatches "/api/products/101" "/api/products/101" = true := by decide
example : pathMatches "/api/products/{id}" "/api/products/101" = true := by decide
example : pathMatches "/api/products/{id}" "/api/products" = false := by decide
example : pathMatches "/api/products/{id}" "/api/products/101/extra" = false := by decide
example : pathMatches "/api/products/101" "/api/products/101/" = false := by decide
example : pathMatches "/api/products/{id}" "/api/products/101/" = true := by decide
example : pathMatches "/api/{id}/x" "/api//x" = true := by decide

/-- A JSON value, as produced by decoding the `response.body` field.
Numbers are modelled as integers (the configured mock bodies in this
repository use only integral numbers; number formatting is not the subject
of any claim). -/
inductive JsonValue where
  | null : JsonValue
  | bool (b : Bool) : JsonValue
  | num (n : Int) : JsonValue
  | str (s : String) : JsonValue
  | arr (xs : List JsonValue) : JsonValue
  | obj (fs : List (String × JsonValue)) : JsonValue

mutual
/-- JSON serialization as performed by `json.NewEncoder(w).Encode` on the
decoded value (string escaping of control characters is elided; no claim
exercises it). -/
def serializeJson : JsonValue → String
  | .null => "null"
  | .bool b => if b then "true" else "false"
  | .num n => toString n
  | .str s => "\"" ++ s ++ "\""
  | .arr xs => "[" ++ serializeArr xs ++ "]"
  | .obj fs => String.mk [lbrace] ++ serializeObj fs ++ String.mk [rbrace]

/-- Comma-joined serialization of an array's elements. -/
def serializeArr : List JsonValue → String
  | [] => ""
  | [x] => serializeJson x
  | x :: y :: rest => serializeJson x ++ "," ++ serializeArr (y :: rest)

/-- Comma-joined serialization of an object's fields. -/
def serializeObj : List (String × JsonValue) → String
  | [] => ""
  | [kv] => "\"" ++ kv.1 ++ "\":" ++ serializeJson kv.2
  | kv :: kw :: rest =>
    "\"" ++ kv.1 ++ "\":" ++ serializeJson kv.2 ++ "," ++ serializeObj (kw :: rest)
end

/-- The `Response` struct of config.go.  `headers` models the
`map[string]string` (keys pairwise distinct; a `nil` map is the empty
list — Go iterates a nil map zero times, identically to an empty one).
`body` models the `Body interface{}` field: `none` is the Go `nil`
interface, `some v` a decoded non-nil JSON value.  A Go `interface{}`
holds no value distinct from `nil` for JSON `null`: `json.Unmarshal` of
`null` into an `interface{}` stores `nil` (see `decodeBodyField`). -/
structure Response where
  status : Nat
  headers : List (String × String)
  body : Option JsonValue

/-- The `Route` struct of config.go. -/
structure Route where
  path : String
  method : String
  requiresAuth : Bool
  authHeader : String
  response : Response

/-- An incoming HTTP request as the handler reads it: method, URL path,
and header lookup with Go `http.Header.Get` semantics — a missing header
reads as the empty string. -/
structure Request where
  method : String
  path : String
  headers : String → String

/-- `encoding/json` unmarshalling of the configured `body` field into the
`Body interface{}` of `Response`: an absent field leaves the interface
`nil`, and an explicit JSON `null` also decodes to `nil` — Go collapses
the two; any other value decodes to itself. -/
def decodeBodyField : Option JsonValue → Option JsonValue
  | none => none
  | some .null => none
  | some v => some v

/-- Go `http.Header.Set(k, v)` on an association list: replaces the entry
for `k` if present, otherwise appends it.  (Go canonicalizes header keys;
the claims only involve keys already in canonical form, so keys are
compared verbatim.) -/
def setHeader : List (String × String) → String → String → List (String × String)
  | [], k, v => [(k, v)]
  | (k1, v1) :: rest, k, v =>
    if k1 = k then (k, v) :: rest else (k1, v1) :: setHeader rest k v

/-- Lookup of a header value in the emitted header mapping. -/
def getHeader : List (String × String) → String → Option String
  | [], _ => none
  | (k1, v1) :: rest, k => if k1 = k then some v1 else getHeader rest k

/-- The header-emission phase of `ServeHTTP`: set every configured response
header, then unconditionally `Set("Content-Type", "application/json")`. -/
def finalHeaders (cfg : List (String × String)) : List (String × String) :=
  setHeader (cfg.foldl (fun acc kv => setHeader acc kv.1 kv.2) [])
    "Content-Type" "application/json"

/-- The body-emission phase of `ServeHTTP`: nothing is written when
`route.Response.Body` is the nil interface; otherwise the JSON encoding
followed by the newline that `json.Encoder.Encode` appends. -/
def renderBody : Option JsonValue → String
  | none => ""
  | some v => serializeJson v ++ "\n"

/-- The outcome of one dispatch: `notFound` (`http.NotFound`),
`unauthorized` (`http.Error` with 401), or the configured response with
its final status, emitted header mapping, and emitted body bytes. -/
inductive Outcome where
  | notFound : Outcome
  | unauthorized : Outcome
  | ok (status : Nat) (headers : List (String × String)) (body : String) : Outcome

/-- The HTTP status carried by an outcome. -/
def Outcome.statusCode : Outcome → Nat
  | .notFound => 404
  | .unauthorized => 401
  | .ok s _ _ => s

/-- The body bytes carried by an outcome: `http.NotFound` writes
"404 page not found\n"; `http.Error(w, msg, 401)` writes `msg` followed
by a newline. -/
def Outcome.bodyText : Outcome → String
  | .notFound => "404 page not found\n"
  | .unauthorized => "Unauthorized: missing auth header\n"
  | .ok _ _ b => b

/-- `findRoute` from handler.go: linear scan over the configured routes in
declaration order, returning the first whose method equals the request
method and whose path pattern matches the request path. -/
def findRoute : List Route → String → String → Option Route
  | [], _, _ => none
  | r :: rs, method, path =>
    if r.method == method && pathMatches r.path path then some r
    else findRoute rs method path

/-- `ServeHTTP` from handler.go as a function of the route table and the
request: find the route (404 when none); when the route requires auth and
the header named `authHeader` is absent or empty, 401 via `http.Error`;
otherwise emit the configured response. -/
def dispatch (routes : List Route) (req : Request) : Outcome :=
  match findRoute routes req.method req.path with
  | none => .notFound
  | some route =>
    if route.requiresAuth && req.headers route.authHeader == "" then
      .unauthorized
    else
      .ok route.response.status (finalHeaders route.response.headers)
        (renderBody route.response.body)

/-- The fixed body written by `healthCheckHandler`
(`fmt.Fprintf` of a constant, no trailing newline). -/
def healthBody : String :=
  String.mk [lbrace] ++ "\"status\":\"ok\",\"message\":\"mockery-api is running\""
    ++ String.mk [rbrace]

/-- The outcome of `healthCheckHandler`: Content-Type set, status 200,
fixed liveness payload. -/
def healthOutcome : Outcome :=
  .ok 200 [("Content-Type", "application/json")] healthBody

/-- The server mux wired in main.go: the exact pattern "/_health" is
registered on the mux before the catch-all "/" mock handler, so a request
whose path is "/_health" is answered by `healthCheckHandler` and never
reaches the route table; every other path goes to `MockHandler.ServeHTTP`. -/
def serverDispatch (routes : List Route) (req : Request) : Outcome :=
  if req.path = "/_health" then healthOutcome else dispatch routes req

/-- Serving a sequence of requests against a fixed route table: the Go
handler keeps no per-call state, so the run is the per-request dispatch
applied pointwise. -/
def processAll (routes : List Route) (reqs : List Request) : List Outcome :=
  reqs.map (dispatch routes)

/-! ### Concrete fixtures used by witnesses and counterexamples -/

/-- A literal (parameter-free) route, as a user would configure it. -/
def litRoute : Route :=
  { path := "/a", method := "GET", requiresAuth := false, authHeader := "",
    response := { status := 200, headers := [], body := none } }

/-- A parameterized user route `/api/users/{id}`. -/
def paramUserRoute : Route :=
  { path := "/api/users/{id}", method := "GET", requiresAuth := false,
    authHeader := "",
    response := { status := 200, headers := [], body := none } }

/-- A literal route for `/api/users/admin`, declared after `paramUserRoute`. -/
def adminRoute : Route :=
  { path := "/api/users/admin", method := "GET", requiresAuth := false,
    authHeader := "",
    response := { status := 201, headers := [], body := none } }

/-- A parameterized products route `/api/products/{id}`. -/
def paramProdRoute : Route :=
  { path := "/api/products/{id}", method := "GET", requiresAuth := false,
    authHeader := "",
    response := { status := 200, headers := [], body := none } }

/-- A route requiring the `X-API-Key` header. -/
def authRoute : Route :=
  { path := "/secure", method := "GET", requiresAuth := true,
    authHeader := "X-API-Key",
    response := { status := 200, headers := [], body := some (.str "ok") } }

/-- A route whose configuration file carries an explicit JSON `null` body;
its in-memory `body` is what `json.Unmarshal` produces for that field. -/
def nullBodyRoute : Route :=
  { path := "/null", method := "GET", requiresAuth := false, authHeader := "",
    response := { status := 200, headers := [],
                  body := decodeBodyField (some .null) } }

/-- A route configuring its own `Content-Type` response header. -/
def ctRoute : Route :=
  { path := "/ct", method := "GET", requiresAuth := false, authHeader := "",
    response := { status := 200,
                  headers := [("Content-Type", "text/plain")], body := none } }

/-- A user-configured route targeting the reserved `/_health` path. -/
def healthUserRoute : Route :=
  { path := "/_health", method := "GET", requiresAuth := false,
    authHeader := "",
    response := { status := 503, headers := [], body := some (.str "down") } }

/-- A request header map with no headers set (`Header.Get` yields ""). -/
def noHeaders : String → String := fun _ => ""

/-- A request header map carrying a non-empty `X-API-Key`. -/
def tokenHeaders : String → String := fun n =>
  if n = "X-API-Key" then "secret-token" else ""

/-! ### Theorems -/

/-- Helper: `Set(k, v)` followed by a lookup of `k` yields `v`. -/
theorem getHeader_set_self (hs : List (String × String)) (k v : String) :
    getHeader (setHeader hs k v) k = some v := by
  induction hs with
  | nil => simp [setHeader, getHeader]
  | cons kv rest ih =>
    obtain ⟨k1, v1⟩ := kv
    by_cases h : k1 = k
    · simp [setHeader, getHeader, h]
    · simp [setHeader, getHeader, h, ih]

/-- C1 (counterexample): the claim says an empty path segment is never
matched by a parameter segment, yet `pathMatches "/api/{id}/x" "/api//x"`
is `true`: position 1 of the split request path is the empty segment
arising between the consecutive slashes, position 1 of the split pattern
is the parameter segment `{id}`, and the match succeeds. -/
theorem paramSeg_empty_counterexample :
    pathMatches "/api/{id}/x" "/api//x" = true ∧
    splitOnSlash (trimSlashes (String.toList "/api//x")) =
      [String.toList "api", [], String.toList "x"] ∧
    splitOnSlash (trimSlashes (String.toList "/api/{id}/x")) =
      [String.toList "api", String.toList "{id}", String.toList "x"] ∧
    isParamSeg (String.toList "{id}") = true :=
  ⟨by decide, by decide, by decide, by decide⟩

/-- C1 (amended): in the segment-comparison loop of `pathMatches`, a
pattern segment that starts with `{` and ends with `}` matches ANY path
segment at its position — the empty segment between consecutive slashes
included — because the loop `continue`s without inspecting the path
segment; in particular `/api/{id}/x` matches `/api//x`. -/
theorem paramSeg_matches_any_segment :
    (∀ p q : List Char, isParamSeg p = true → segMatches p q = true) ∧
    pathMatches "/api/{id}/x" "/api//x" = true := by
  constructor
  · intro p q hp
    simp [segMatches, hp]
  · decide

/-- Witness for `paramSeg_matches_any_segment`: the parameter segment
`{id}` matches the empty path segment. -/
theorem paramSeg_matches_any_segment_witness :
    segMatches (String.toList "{id}") [] = true :=
  paramSeg_matches_any_segment.1 (String.toList "{id}") [] (by decide)

/-- C2: `findRoute` is exactly a first-match linear scan (it agrees with
`List.find?` of the method/path predicate on every table and request), and
on the table `[/api/users/{id}, /api/users/admin]` a GET request for
`/api/users/admin` is answered by the earlier parameterized route, even
though the later literal route also matches. -/
theorem findRoute_first_match :
    (∀ (routes : List Route) (method path : String),
      findRoute routes method path =
        routes.find? (fun r => r.method == method && pathMatches r.path path)) ∧
    findRoute [paramUserRoute, adminRoute] "GET" "/api/users/admin" =
      some paramUserRoute ∧
    (adminRoute.method == "GET" &&
      pathMatches adminRoute.path "/api/users/admin") = true := by
  refine ⟨fun routes method path => ?_, rfl, by decide⟩
  induction routes with
  | nil => rfl
  | cons r rs ih =>
    simp only [findRoute, List.find?]
    cases h : r.method == method && pathMatches r.path path <;> simp [h, ih]

/-- C10: `pathMatches` is reflexive — the exact-equality fast path accepts
every string against itself — so a request whose path is the literal text
of a parameterized pattern, braces included, matches that route. -/
theorem pathMatches_refl :
    (∀ p : String, pathMatches p p = true) ∧
    pathMatches "/api/products/{id}" "/api/products/{id}" = true ∧
    findRoute [paramProdRoute] "GET" "/api/products/{id}" =
      some paramProdRoute := by
  refine ⟨fun p => ?_, by decide, rfl⟩
  simp [pathMatches, pathMatchesL]

/-- C3: for a matched route with `requiresAuth = true`, a request whose
`authHeader` reads as the empty string (absent or set to "") yields the
`unauthorized` outcome; any non-empty value yields the route's configured
response; and two requests differing only in such non-empty header values
receive identical outcomes — the value's content never matters. -/
theorem dispatch_auth_presence :
    ∀ (routes : List Route) (method path : String) (route : Route),
      findRoute routes method path = some route →
      route.requiresAuth = true →
      (∀ hdrs : String → String, hdrs route.authHeader = "" →
        dispatch routes { method := method, path := path, headers := hdrs } =
          .unauthorized) ∧
      (∀ hdrs : String → String, hdrs route.authHeader ≠ "" →
        dispatch routes { method := method, path := path, headers := hdrs } =
          .ok route.response.status (finalHeaders route.response.headers)
            (renderBody route.response.body)) ∧
      (∀ h1 h2 : String → String,
        h1 route.authHeader ≠ "" → h2 route.authHeader ≠ "" →
        dispatch routes { method := method, path := path, headers := h1 } =
          dispatch routes { method := method, path := path, headers := h2 }) := by
  intro routes method path route hfind hauth
  refine ⟨fun hdrs h0 => ?_, fun hdrs hne => ?_, fun h1 h2 hn1 hn2 => ?_⟩
  · simp [dispatch, hfind, hauth, h0]
  · simp [dispatch, hfind, hauth, hne]
  · simp [dispatch, hfind, hauth, hn1, hn2]

/-- Witness for `dispatch_auth_presence`: on the one-route table
`[authRoute]`, a request without `X-API-Key` is refused and one carrying
a token receives the configured response. -/
theorem dispatch_auth_presence_witness :
    dispatch [authRoute]
        { method := "GET", path := "/secure", headers := noHeaders } =
      .unauthorized ∧
    dispatch [authRoute]
        { method := "GET", path := "/secure", headers := tokenHeaders } =
      .ok authRoute.response.status (finalHeaders authRoute.response.headers)
        (renderBody authRoute.response.body) := by
  have h := dispatch_auth_presence [authRoute] "GET" "/secure" authRoute rfl rfl
  exact ⟨h.1 noHeaders rfl, h.2.1 tokenHeaders (by decide)⟩

/-- C4 (counterexample): the claim says the 401 outcome carries no
response body, but the code calls `http.Error`, which writes the message
plus a newline: the emitted body is "Unauthorized: missing auth header\n",
which is not empty. -/
theorem unauthorized_no_body_counterexample :
    dispatch [authRoute]
        { method := "GET", path := "/secure", headers := noHeaders } =
      .unauthorized ∧
    (dispatch [authRoute]
        { method := "GET", path := "/secure", headers := noHeaders }).bodyText =
      "Unauthorized: missing auth header\n" ∧
    "Unauthorized: missing auth header\n" ≠ "" :=
  ⟨rfl, rfl, by decide⟩

/-- C4 (amended): for a matched auth-requiring route whose header is
missing or empty, the outcome is 401 carrying the fixed plain-text body
"Unauthorized: missing auth header\n" written by `http.Error` — never
the route's configured body, but not an empty body either. -/
theorem unauthorized_fixed_text_body :
    ∀ (routes : List Route) (method path : String) (route : Route)
      (hdrs : String → String),
      findRoute routes method path = some route →
      route.requiresAuth = true →
      hdrs route.authHeader = "" →
      dispatch routes { method := method, path := path, headers := hdrs } =
        .unauthorized ∧
      (dispatch routes
          { method := method, path := path, headers := hdrs }).statusCode =
        401 ∧
      (dispatch routes
          { method := method, path := path, headers := hdrs }).bodyText =
        "Unauthorized: missing auth header\n" := by
  intro routes method path route hdrs hfind hauth h0
  have hd : dispatch routes { method := method, path := path, headers := hdrs } =
      .unauthorized := by
    simp [dispatch, hfind, hauth, h0]
  exact ⟨hd, by rw [hd]; rfl, by rw [hd]; rfl⟩

/-- Witness for `unauthorized_fixed_text_body`. -/
theorem unauthorized_fixed_text_body_witness :
    (dispatch [authRoute]
        { method := "GET", path := "/secure", headers := noHeaders }).bodyText =
      "Unauthorized: missing auth header\n" :=
  (unauthorized_fixed_text_body [authRoute] "GET" "/secure" authRoute noHeaders
    rfl rfl rfl).2.2

/-- C7: the emitted header mapping of every successful (ok) outcome sends
"Content-Type" to "application/json": the override is the last `Set`, so
it wins over any configured Content-Type; stated both for the pure
header-emission function and for every `dispatch` result. -/
theorem content_type_forced :
    (∀ cfg : List (String × String),
      getHeader (finalHeaders cfg) "Content-Type" = some "application/json") ∧
    (∀ (routes : List Route) (req : Request) (s : Nat)
        (hs : List (String × String)) (b : String),
      dispatch routes req = .ok s hs b →
      getHeader hs "Content-Type" = some "application/json") := by
  refine ⟨fun cfg => getHeader_set_self _ _ _, ?_⟩
  intro routes req s hs b h
  unfold dispatch at h
  split at h
  · cases h
  · split at h
    · cases h
    · obtain ⟨-, h2, -⟩ := Outcome.ok.inj h
      rw [← h2]
      exact getHeader_set_self _ _ _

/-- Witness for `content_type_forced`: a route that configures
`Content-Type: text/plain` still emits `application/json`. -/
theorem content_type_forced_witness :
    getHeader (finalHeaders [("Content-Type", "text/plain")]) "Content-Type" =
      some "application/json" :=
  content_type_forced.2 [ctRoute]
    { method := "GET", path := "/ct", headers := noHeaders } 200
    (finalHeaders [("Content-Type", "text/plain")]) (renderBody none) rfl

/-- C5 (counterexample): the claim says an explicitly configured JSON
`null` body is serialized and written as the payload, but `json.Unmarshal`
stores Go `nil` in the `Body interface{}` field for an explicit `null`,
and `ServeHTTP` writes a body only when `Body != nil`: the route whose
configuration carries `"body": null` emits an empty payload, not the
serialization "null\n". -/
theorem null_body_counterexample :
    decodeBodyField (some JsonValue.null) = none ∧
    dispatch [nullBodyRoute]
        { method := "GET", path := "/null", headers := noHeaders } =
      .ok 200 (finalHeaders []) "" ∧
    (dispatch [nullBodyRoute]
        { method := "GET", path := "/null", headers := noHeaders }).bodyText =
      "" ∧
    (dispatch [nullBodyRoute]
        { method := "GET", path := "/null", headers := noHeaders }).bodyText ≠
      serializeJson JsonValue.null ++ "\n" :=
  ⟨rfl, rfl, rfl, by decide⟩

/-- C5 (amended): a payload is written exactly when the in-memory `Body`
field is non-nil; decoding collapses an explicit JSON `null` and an absent
field to the same nil `Body`, so an explicit `null` produces no payload —
the two are NOT distinguishable; any non-null configured value decodes to
itself and is emitted as the configured response's payload. -/
theorem body_presence :
    (∀ b : Option JsonValue, renderBody b = "" ↔ b = none) ∧
    decodeBodyField none = none ∧
    decodeBodyField (some JsonValue.null) = none ∧
    (∀ v : JsonValue, v ≠ JsonValue.null → decodeBodyField (some v) = some v) ∧
    (∀ (routes : List Route) (method path : String) (route : Route)
        (hdrs : String → String),
      findRoute routes method path = some route →
      (route.requiresAuth = true → hdrs route.authHeader ≠ "") →
      (dispatch routes
          { method := method, path := path, headers := hdrs }).bodyText =
        renderBody route.response.body) := by
  refine ⟨fun b => ?_, rfl, rfl, fun v hv => ?_, ?_⟩
  · cases b with
    | none => simp [renderBody]
    | some v =>
      simp only [renderBody]
      constructor
      · intro h
        have := congrArg String.length h
        simp [String.length_append] at this
        exact absurd this.2 (by decide)
      · intro h
        cases h
  · cases v with
    | null => exact absurd rfl hv
    | bool b => rfl
    | num n => rfl
    | str s => rfl
    | arr xs => rfl
    | obj fs => rfl
  · intro routes method path route hdrs hfind himp
    cases hra : route.requiresAuth with
    | false => simp [dispatch, hfind, hra, Outcome.bodyText]
    | true => simp [dispatch, hfind, hra, himp hra, Outcome.bodyText]

/-- Witness for `body_presence`: a string body survives decoding, an
explicit null renders to no payload, and on `nullBodyRoute` the emitted
body is the rendering of the stored body. -/
theorem body_presence_witness :
    decodeBodyField (some (JsonValue.str "ok")) = some (JsonValue.str "ok") ∧
    renderBody (decodeBodyField (some JsonValue.null)) = "" ∧
    (dispatch [nullBodyRoute]
        { method := "GET", path := "/null", headers := noHeaders }).bodyText =
      renderBody nullBodyRoute.response.body := by
  refine ⟨body_presence.2.2.2.1 (JsonValue.str "ok") (by intro hx; cases hx),
    (body_presence.1 (decodeBodyField (some JsonValue.null))).mpr
      body_presence.2.2.1,
    body_presence.2.2.2.2 [nullBodyRoute] "GET" "/null" nullBodyRoute noHeaders
      rfl (fun hra => absurd hra (by decide))⟩

/-- C8: the mux answers every request whose path is "/_health" with the
fixed 200 liveness outcome, for every route table — the empty one and one
whose user route also targets "/_health" included — so the reserved path
is decided before the route table is consulted. -/
theorem health_reserved :
    (∀ (routes : List Route) (method : String) (hdrs : String → String),
      serverDispatch routes
        { method := method, path := "/_health", headers := hdrs } =
        healthOutcome) ∧
    healthOutcome.statusCode = 200 ∧
    healthOutcome.bodyText = healthBody ∧
    healthUserRoute.path = "/_health" ∧
    serverDispatch [healthUserRoute]
      { method := "GET", path := "/_health", headers := noHeaders } =
      healthOutcome ∧
    serverDispatch []
      { method := "GET", path := "/_health", headers := noHeaders } =
      healthOutcome :=
  ⟨fun routes method hdrs => by simp [serverDispatch], rfl, rfl, rfl, rfl, rfl⟩

/-- C9: dispatch carries no state across calls — serving a sequence of
requests is the pointwise dispatch of each, so the outcome appended for a
final request is `dispatch routes r` whatever came before — and identical
requests (same method, path, and header mapping) yield identical outcomes,
status codes, and body bytes. -/
theorem dispatch_stateless :
    (∀ (routes : List Route) (reqs : List Request) (r : Request),
      processAll routes (reqs ++ [r]) =
        processAll routes reqs ++ [dispatch routes r]) ∧
    (∀ (routes : List Route) (r1 r2 : Request),
      r1.method = r2.method → r1.path = r2.path → r1.headers = r2.headers →
      dispatch routes r1 = dispatch routes r2 ∧
      (dispatch routes r1).statusCode = (dispatch routes r2).statusCode ∧
      (dispatch routes r1).bodyText = (dispatch routes r2).bodyText) := by
  constructor
  · intro routes reqs r
    simp [processAll]
  · intro routes r1 r2 hm hp hh
    obtain ⟨m1, p1, h1⟩ := r1
    obtain ⟨m2, p2, h2⟩ := r2
    dsimp only at hm hp hh
    subst hm hp hh
    exact ⟨rfl, rfl, rfl⟩

/-- Witness for `dispatch_stateless`: two textually identical requests to
the same table. -/
theorem dispatch_stateless_witness :
    dispatch [litRoute] { method := "GET", path := "/a", headers := noHeaders } =
      dispatch [litRoute]
        { method := "GET", path := "/a", headers := noHeaders } :=
  (dispatch_stateless.2 [litRoute]
    { method := "GET", path := "/a", headers := noHeaders }
    { method := "GET", path := "/a", headers := noHeaders } rfl rfl rfl).1

/-- Helper: appending a trailing slash does not change the slash-trimmed
character list. -/
theorem trimSlashes_append_slash (cs : List Char) :
    trimSlashes (cs ++ ['/']) = trimSlashes cs := by
  unfold trimSlashes
  rw [List.dropWhile_append]
  rcases h : List.dropWhile (fun c => c == '/') cs with _ | ⟨d, ds⟩
  · simp [List.dropWhile]
  · simp only [List.isEmpty_cons, Bool.false_eq_true, if_false]
    rw [List.reverse_append]
    simp only [List.reverse_cons, List.reverse_nil, List.nil_append,
      List.singleton_append]
    rw [List.dropWhile_cons]
    simp

/-- Helper: the segment comparison accepts any segment list against
itself. -/
theorem segsMatch_self (ss : List (List Char)) : segsMatch ss ss = true := by
  induction ss with
  | nil => rfl
  | cons s rest ih => simp [segsMatch, segMatches, ih]

/-- C6 (counterexample): the claim fails for literal routes — a literal
pattern matches only by exact string equality, so `/a` resolves to the
configured `/a` route while `/a/` (the same path with one trailing slash
appended) resolves to no route at all. -/
theorem trailing_slash_counterexample :
    String.toList "/a/" = String.toList "/a" ++ ['/'] ∧
    findRoute [litRoute] "GET" "/a" = some litRoute ∧
    findRoute [litRoute] "GET" "/a/" = none :=
  ⟨by decide, rfl, rfl⟩

/-- C6 (amended): trailing-slash equivalence holds exactly on the
parameterized side of the matcher — for every pattern containing the `{`
marker, appending one trailing slash to the request path does not change
`pathMatches`, and over a table all of whose patterns contain `{`, route
resolution of a path and of the same path with one trailing slash
appended agree; for a literal pattern, matching is bare string equality
and the equivalence can fail (see the counterexample). -/
theorem trailing_slash_param_equiv :
    (∀ pat pth : List Char, pat.contains lbrace = true →
      pathMatchesL pat (pth ++ ['/']) = pathMatchesL pat pth) ∧
    (∀ (routes : List Route) (method path path2 : String),
      (∀ r ∈ routes, r.path.toList.contains lbrace = true) →
      path2.toList = path.toList ++ ['/'] →
      findRoute routes method path2 = findRoute routes method path) := by
  have hL : ∀ pat pth : List Char, pat.contains lbrace = true →
      pathMatchesL pat (pth ++ ['/']) = pathMatchesL pat pth := by
    intro pat pth hpar
    have hmem : lbrace ∈ pat := by simpa using hpar
    unfold pathMatchesL
    rw [trimSlashes_append_slash]
    by_cases h1 : pat = pth
    · subst h1
      simp [hmem, segsMatch_self]
    · by_cases h2 : pat = pth ++ ['/']
      · rw [if_pos h2, if_neg h1]
        have ht : trimSlashes pat = trimSlashes pth := by
          rw [h2, trimSlashes_append_slash]
        rw [ht]
        simp [hmem, segsMatch_self]
      · rw [if_neg h2, if_neg h1]
  refine ⟨hL, ?_⟩
  intro routes method path path2 hall h2
  induction routes with
  | nil => rfl
  | cons r rs ih =>
    have hr : pathMatches r.path path2 = pathMatches r.path path := by
      unfold pathMatches
      rw [h2]
      exact hL _ _ (hall r (List.mem_cons_self r rs))
    simp only [findRoute]
    rw [hr, ih (fun x hx => hall x (List.mem_cons_of_mem _ hx))]

/-- Witness for `trailing_slash_param_equiv`: the parameterized table
`[/api/users/{id}]` resolves `/api/users/7/` and `/api/users/7`
identically. -/
theorem trailing_slash_param_equiv_witness :
    pathMatchesL (String.toList "/api/users/{id}")
        (String.toList "/api/users/7" ++ ['/']) =
      pathMatchesL (String.toList "/api/users/{id}")
        (String.toList "/api/users/7") ∧
    findRoute [paramUserRoute] "GET" "/api/users/7/" =
      findRoute [paramUserRoute] "GET" "/api/users/7" := by
  refine ⟨trailing_slash_param_equiv.1 _ _ (by decide),
    trailing_slash_param_equiv.2 [paramUserRoute] "GET" "/api/users/7"
      "/api/users/7/" ?_ (by decide)⟩
  intro r hr
  rw [List.mem_singleton] at hr
  subst hr
  decide

end Mockery
